import Mathlib

/-!
Verification of the room playback synchronisation and room queue services
of the soulsync application.

The embedding follows `src/services/roomPlaybackService.ts`,
`src/services/roomQueueService.ts` and the room-sync effect of the
`MusicPlayerProvider` component.  Server-epoch timestamps are modelled as
integers (milliseconds), playback positions and volumes as rationals
(seconds / percent), the realtime-database record `rooms/{roomId}/playback`
as `Option PlaybackState` (`none` is an absent or deleted record, and
`none` in `startServerTs` is the JSON `null`).
-/

namespace SoulSync

/-- Song metadata carried inside a playback record
(`PlaybackState.songMeta` in `roomPlaybackService.ts`). -/
structure SongMeta where
  title : String
  artist : String
  thumbnail : String
deriving DecidableEq

/-- The `rooms/{roomId}/playback` record (interface `PlaybackState` in
`roomPlaybackService.ts`).  `updatedAt` and `startServerTs` are server-epoch
milliseconds; `position` is seconds. -/
structure PlaybackState where
  songId : String
  songMeta : SongMeta
  isPlaying : Bool
  position : ℚ
  volume : ℚ
  initiator : String
  opId : String
  version : ℕ
  updatedAt : ℤ
  startServerTs : Option ℤ
deriving DecidableEq

/-- `RoomPlaybackService.subscribe`: the echo test
`typeof state.opId === 'string' && state.opId === this.lastUserOpId`.
In the model `opId` is always a string, so the test is equality with the
service's `lastUserOpId` (which is `none` when no local op was issued). -/
def isLocalEcho (lastUserOpId : Option String) (st : PlaybackState) : Bool :=
  lastUserOpId == some st.opId

/-- `RoomPlaybackService.subscribe`: the synced live position.  The source is
`let syncedPos = position; if (raw.isPlaying && startServerTs) syncedPos =
position + (this.nowServerMs() - startServerTs) / 1000;` — note that the JS
truthiness test makes `startServerTs = 0` behave like `null`. -/
def syncedPos (nowServerMs : ℤ) (st : PlaybackState) : ℚ :=
  match st.startServerTs with
  | some ts => if st.isPlaying ∧ ts ≠ 0 then st.position + ((nowServerMs - ts : ℤ) : ℚ) / 1000
               else st.position
  | none => st.position

/-- What `RoomPlaybackService.subscribe` hands to the callback for one
snapshot: `(state, syncedPos, isLocal)`; a missing record yields
`(null, null, false)`. -/
def svcEmit (lastUserOpId : Option String) (nowServerMs : ℤ) (raw : Option PlaybackState) :
    Option PlaybackState × Option ℚ × Bool :=
  match raw with
  | none => (none, none, false)
  | some st => (some st, some (syncedPos nowServerMs st), isLocalEcho lastUserOpId st)

/-- Media-element / UI effects the `MusicPlayerProvider` room-sync callback can
issue on one delivery. -/
inductive MediaAction where
  | reloadTrack (songId : String)
  | setPlaying (playing : Bool)
  | setTime (t : ℚ)
  | seekTo (t : ℚ)
  | setVolume (v : ℚ)
deriving DecidableEq

/-- The local state of the `MusicPlayerProvider` that the room-sync callback
reads and writes: `lastAppliedVersionRef`, `hasInitialSyncedRef`,
`currentSong`, `isPlaying`, `currentTime`, `volume`,
`pendingSyncPositionRef`. -/
structure ClientState where
  lastAppliedVersion : ℕ
  hasInitialSynced : Bool
  currentSongId : Option String
  isPlaying : Bool
  currentTime : ℚ
  volume : ℚ
  pendingSyncPosition : Option ℚ
deriving DecidableEq

/-- Initial provider state: `lastAppliedVersionRef = 0`,
`hasInitialSyncedRef = false`, `currentSong = null`, `isPlaying = false`,
`currentTime = 0`, `volume = 100`, no pending sync position. -/
def initClient : ClientState :=
  { lastAppliedVersion := 0
    hasInitialSynced := false
    currentSongId := none
    isPlaying := false
    currentTime := 0
    volume := 100
    pendingSyncPosition := none }

/-- `shouldForceSeek = !hasInitialSyncedRef.current ||
(typeof local === 'number' && Math.abs(local - nextTime) > 2)`. -/
def shouldForceSeek (c : ClientState) (localTime : Option ℚ) (nextTime : ℚ) : Bool :=
  !c.hasInitialSynced ||
    (match localTime with
     | some lt => decide (|lt - nextTime| > 2)
     | none => false)

/-- The body of the `MusicPlayerProvider` room-sync callback for a non-null
state `(state, syncedPos, isLocal)`.  `playerReady` models
`playerRef.current` being non-null, `localTime` the value of
`playerRef.current.getCurrentTime?.()`.  Returns the updated provider state
together with the media actions issued. -/
def clientStep (c : ClientState) (st : PlaybackState) (sp : Option ℚ) (isLocal : Bool)
    (playerReady : Bool) (localTime : Option ℚ) : ClientState × List MediaAction :=
  if st.version < c.lastAppliedVersion then (c, [])
  else
    let c1 : ClientState := { c with lastAppliedVersion := st.version }
    if isLocal then (c1, [])
    else
      let nextTime : ℚ := sp.getD st.position
      let isSameSong : Bool := c.currentSongId == some st.songId
      let loadActs : List MediaAction :=
        if isSameSong then [] else [MediaAction.reloadTrack st.songId]
      let c2 : ClientState :=
        { c1 with
          currentSongId := some st.songId
          pendingSyncPosition :=
            if isSameSong then c1.pendingSyncPosition else some nextTime
          isPlaying := st.isPlaying
          currentTime := nextTime }
      let seekRes : ClientState × List MediaAction :=
        if playerReady then
          if shouldForceSeek c localTime nextTime then
            ({ c2 with hasInitialSynced := true, pendingSyncPosition := none },
             [MediaAction.seekTo nextTime])
          else (c2, [])
        else ({ c2 with pendingSyncPosition := some nextTime }, [])
      let volRes : ClientState × List MediaAction :=
        if st.volume = c.volume then (seekRes.1, [])
        else ({ seekRes.1 with volume := st.volume }, [MediaAction.setVolume st.volume])
      (volRes.1,
       loadActs ++ [MediaAction.setPlaying st.isPlaying, MediaAction.setTime nextTime]
         ++ seekRes.2 ++ volRes.2)

/-- One delivered room-playback update as observed by a subscriber: the raw
record, the server time at delivery, and the local player situation. -/
structure Delivery where
  st : PlaybackState
  now : ℤ
  playerReady : Bool
  localTime : Option ℚ
deriving DecidableEq

/-- Delivery of one non-null snapshot through the service layer to the
provider callback. -/
def deliver (lastUserOpId : Option String) (c : ClientState) (d : Delivery) :
    ClientState × List MediaAction :=
  clientStep c d.st (some (syncedPos d.now d.st)) (isLocalEcho lastUserOpId d.st)
    d.playerReady d.localTime

/-- Delivery of a possibly-null snapshot: the provider callback starts with
`if (!state) return;`. -/
def onSnapshot (lastUserOpId : Option String) (c : ClientState) (raw : Option PlaybackState)
    (now : ℤ) (playerReady : Bool) (localTime : Option ℚ) : ClientState × List MediaAction :=
  match raw with
  | none => (c, [])
  | some st => deliver lastUserOpId c ⟨st, now, playerReady, localTime⟩

/-- Folding a sequence of delivered updates through the reconciler. -/
def reconcile (lastUserOpId : Option String) (c : ClientState) (l : List Delivery) :
    ClientState :=
  l.foldl (fun s d => (deliver lastUserOpId s d).1) c

/-- `RoomPlaybackService.getNextVersion`:
`typeof current?.version === 'number' ? current.version + 1 : 1`. -/
def getNextVersion : Option PlaybackState → ℕ
  | some cur => cur.version + 1
  | none => 1

/-- `RoomPlaybackService.playSong`: reads the current record, generates a
fresh `opId` (passed in as `opId`, since generation is nondeterministic),
writes the full new record and returns the `opId`. -/
def playSong (store : Option PlaybackState) (userId songId : String) (songMeta : SongMeta)
    (volume : ℚ) (opId : String) (now : ℤ) : Option PlaybackState × String :=
  (some
    { songId := songId
      songMeta := songMeta
      isPlaying := true
      position := 0
      volume := volume
      initiator := userId
      opId := opId
      version := getNextVersion store
      updatedAt := now
      startServerTs := some now }, opId)

/-- `RoomPlaybackService.pause`: `if (!current) return;` then a field update.
The boolean records whether a write was issued. -/
def pause (store : Option PlaybackState) (userId : String) (position : ℚ)
    (opId : String) (now : ℤ) : Option PlaybackState × Bool :=
  match store with
  | none => (none, false)
  | some cur =>
    (some
      { cur with
        isPlaying := false
        position := position
        initiator := userId
        opId := opId
        version := getNextVersion (some cur)
        updatedAt := now
        startServerTs := none }, true)

/-- `RoomPlaybackService.resume`: `if (!current) return;` then a field update
with `startServerTs = serverTimestamp()`. -/
def resume (store : Option PlaybackState) (userId : String) (position : ℚ)
    (opId : String) (now : ℤ) : Option PlaybackState × Bool :=
  match store with
  | none => (none, false)
  | some cur =>
    (some
      { cur with
        isPlaying := true
        position := position
        initiator := userId
        opId := opId
        version := getNextVersion (some cur)
        updatedAt := now
        startServerTs := some now }, true)

/-- One client call to `RoomPlaybackService.seek`: the wall-clock time of the
call, the requested position, the playing flag, and the generated `opId`. -/
structure SeekCall where
  t : ℤ
  pos : ℚ
  isPlaying : Bool
  opId : String
deriving DecidableEq

/-- The throttle test `if (this.seekThrottle) return;`: the pending
`setTimeout` handle is live until 250 ms after it was armed, so the throttle
is active at time `t` exactly when `t` is before the stored expiry. -/
def throttleActive (thr : Option ℤ) (t : ℤ) : Bool :=
  match thr with
  | some te => decide (t < te)
  | none => false

/-- One call to `RoomPlaybackService.seek`.  Returns the store after the
call, the new throttle expiry, and the record written (if any).  The source
arms the throttle before the missing-record check, so a call on a missing
record still arms the throttle but writes nothing. -/
def seek1 (userId : String) (store : Option PlaybackState) (thr : Option ℤ)
    (call : SeekCall) : Option PlaybackState × Option ℤ × Option PlaybackState :=
  if throttleActive thr call.t then (store, thr, none)
  else
    let thr2 : Option ℤ := some (call.t + 250)
    match store with
    | none => (none, thr2, none)
    | some cur =>
      let w : PlaybackState :=
        { cur with
          position := call.pos
          isPlaying := call.isPlaying
          initiator := userId
          opId := call.opId
          version := getNextVersion (some cur)
          updatedAt := call.t
          startServerTs := if call.isPlaying then some call.t else none }
      (some w, thr2, some w)

/-- A sequence of calls to `RoomPlaybackService.seek`, collecting the writes
that reach the store in order. -/
def seekRun (userId : String) (store : Option PlaybackState) (thr : Option ℤ) :
    List SeekCall → Option PlaybackState × Option ℤ × List PlaybackState
  | [] => (store, thr, [])
  | call :: rest =>
    let r := seek1 userId store thr call
    let r2 := seekRun userId r.1 r.2.1 rest
    (r2.1, r2.2.1, r.2.2.toList ++ r2.2.2)

/-- One tick of `RoomPlaybackService.startHeartbeat`:
`if (!current || current.initiator !== userId) return;` then a field update
of `position`, `updatedAt` and `startServerTs` only.  The boolean records
whether a write was issued. -/
def heartbeatTick (store : Option PlaybackState) (userId : String) (playerPos : ℚ)
    (playerIsPlaying : Bool) (now : ℤ) : Option PlaybackState × Bool :=
  match store with
  | none => (none, false)
  | some cur =>
    if cur.initiator = userId then
      (some
        { cur with
          position := playerPos
          updatedAt := now
          startServerTs := if playerIsPlaying then some now else none }, true)
    else (some cur, false)

/-- Modelled from the spec (for the refinement check of the live-position
claim): live position at server time `T` is
`position + (T - playStartServerTime) / 1000` whenever `isPlaying` is true
and `playStartServerTime` is a number, else `position`. -/
def specSyncedPos (nowServerMs : ℤ) (st : PlaybackState) : ℚ :=
  match st.startServerTs with
  | some ts => if st.isPlaying then st.position + ((nowServerMs - ts : ℤ) : ℚ) / 1000
               else st.position
  | none => st.position

/-- A song stored in a queue entry (`RoomQueueSong` in
`roomQueueService.ts`). -/
structure RoomQueueSong where
  id : String
  title : String
  artist : String
  thumbnail : String
  duration : Option ℚ
deriving DecidableEq

/-- A queue entry under `rooms/{roomId}/queue/{itemId}` (`RoomQueueItem`);
`addedAt = none` models a non-numeric `addedAt`. -/
structure RoomQueueItem where
  itemId : String
  song : RoomQueueSong
  addedBy : String
  addedAt : Option ℤ
deriving DecidableEq

/-- The primary sort key `const ta = a.addedAt ?? 0`. -/
def keyTime (a : RoomQueueItem) : ℤ := a.addedAt.getD 0

/-- The full sort key of a queue item. -/
def keyOf (a : RoomQueueItem) : ℤ × String := (keyTime a, a.itemId)

/-- The comparator of `roomQueueService.ts` (shared by `subscribe` and
`getFirstItem`) as a relation: ascending `addedAt ?? 0`, ties broken by
`itemId` string order (the source uses `localeCompare`; the model uses
codepoint order). -/
def qle (a b : RoomQueueItem) : Prop :=
  keyTime a < keyTime b ∨ (keyTime a = keyTime b ∧ a.itemId ≤ b.itemId)

/-- Strict version of `qle`: the key of `a` is lexicographically smaller. -/
def qlt (a b : RoomQueueItem) : Prop :=
  keyTime a < keyTime b ∨ (keyTime a = keyTime b ∧ a.itemId < b.itemId)

instance : DecidableRel qle := fun a b => by unfold qle; infer_instance

instance : IsTotal RoomQueueItem qle :=
  ⟨by
    intro a b
    rcases lt_trichotomy (keyTime a) (keyTime b) with h | h | h
    · exact Or.inl (Or.inl h)
    · rcases le_total a.itemId b.itemId with h2 | h2
      · exact Or.inl (Or.inr ⟨h, h2⟩)
      · exact Or.inr (Or.inr ⟨h.symm, h2⟩)
    · exact Or.inr (Or.inl h)⟩

instance : IsTrans RoomQueueItem qle :=
  ⟨by
    intro a b c hab hbc
    rcases hab with h1 | ⟨h1, h2⟩
    · rcases hbc with h3 | ⟨h3, h4⟩
      · exact Or.inl (h1.trans h3)
      · exact Or.inl (h3 ▸ h1)
    · rcases hbc with h3 | ⟨h3, h4⟩
      · exact Or.inl (h1 ▸ h3)
      · exact Or.inr ⟨h1.trans h3, h2.trans h4⟩⟩

/-- The sort performed identically in `RoomQueueService.subscribe` and
`RoomQueueService.getFirstItem` (a stable comparison sort under `qle`). -/
def sortQueue (l : List RoomQueueItem) : List RoomQueueItem :=
  List.insertionSort qle l

/-- The ordered list pushed to queue subscribers. -/
def subscribeItems (l : List RoomQueueItem) : List RoomQueueItem :=
  sortQueue l

/-- `RoomQueueService.getFirstItem`: sort, then `items[0] ?? null`. -/
def getFirstItem (l : List RoomQueueItem) : Option RoomQueueItem :=
  (sortQueue l).head?

/-! ### Helper lemmas about the queue order -/

lemma qle_refl (a : RoomQueueItem) : qle a a := Or.inr ⟨rfl, le_refl _⟩

lemma qle_antisymm_on {l : List RoomQueueItem}
    (hnd : (l.map RoomQueueItem.itemId).Nodup) :
    ∀ a ∈ l, ∀ b ∈ l, qle a b → qle b a → a = b := by
  intro a ha b hb hab hba
  have hid : a.itemId = b.itemId := by
    rcases hab with h1 | ⟨h1, h2⟩ <;> rcases hba with h3 | ⟨h3, h4⟩
    · exact absurd h3 (lt_asymm h1)
    · exfalso; omega
    · exfalso; omega
    · exact le_antisymm h2 h4
  exact List.inj_on_of_nodup_map hnd ha hb hid

lemma sorted_perm_eq :
    ∀ {l₁ l₂ : List RoomQueueItem}, l₁.Perm l₂ →
      List.Sorted qle l₁ → List.Sorted qle l₂ →
      (∀ a ∈ l₁, ∀ b ∈ l₁, qle a b → qle b a → a = b) → l₁ = l₂ := by
  intro l₁
  induction l₁ with
  | nil =>
    intro l₂ hp _ _ _
    exact hp.nil_eq
  | cons a t₁ ih =>
    intro l₂ hp hs₁ hs₂ ha
    cases l₂ with
    | nil => exact absurd hp.eq_nil (by simp)
    | cons b t₂ =>
      have hab : a = b := by
        by_cases h : a = b
        · exact h
        · have hat : a ∈ t₂ := by
            have := hp.subset (List.mem_cons_self a t₁)
            exact (List.mem_cons.mp this).resolve_left h
          have hbt : b ∈ t₁ := by
            have := hp.symm.subset (List.mem_cons_self b t₂)
            exact (List.mem_cons.mp this).resolve_left fun hba => h hba.symm
          have h1 : qle a b := List.rel_of_sorted_cons hs₁ b hbt
          have h2 : qle b a := List.rel_of_sorted_cons hs₂ a hat
          exact ha a (List.mem_cons_self a t₁) b (List.mem_cons_of_mem a hbt) h1 h2
      subst hab
      have hpt : t₁.Perm t₂ := (List.perm_cons a).mp hp
      have ht : t₁ = t₂ :=
        ih hpt hs₁.of_cons hs₂.of_cons fun x hx y hy =>
          ha x (List.mem_cons_of_mem a hx) y (List.mem_cons_of_mem a hy)
      rw [ht]

/-- Claim C7: for any collection of queue items, `getFirstItem` returns the
item whose `(addedAt ?? 0, itemId)` key is smallest in the lexicographic
order (none on an empty queue), and the list pushed to subscribers is sorted
by exactly that order, so two reads of the same data (any two permutations
of the same items, with the distinct Firebase keys as `itemId`s) never
disagree on order. -/
theorem c7_queue_order_deterministic (l l' : List RoomQueueItem)
    (hperm : l.Perm l') (hnd : (l.map RoomQueueItem.itemId).Nodup) :
    List.Sorted qle (subscribeItems l) ∧ (subscribeItems l).Perm l ∧
    getFirstItem l = (subscribeItems l).head? ∧
    (getFirstItem l = none ↔ l = []) ∧
    (∀ m, getFirstItem l = some m → m ∈ l ∧ ∀ x ∈ l, qle m x) ∧
    (∀ m, getFirstItem l = some m → ∀ x ∈ l, keyOf x ≠ keyOf m → qlt m x) ∧
    subscribeItems l = subscribeItems l' := by
  have hsorted : List.Sorted qle (sortQueue l) := List.sorted_insertionSort qle l
  have hpl : (sortQueue l).Perm l := List.perm_insertionSort qle l
  have hmin : ∀ m, getFirstItem l = some m → m ∈ l ∧ ∀ x ∈ l, qle m x := by
    intro m hm
    cases hq : sortQueue l with
    | nil => rw [getFirstItem, hq] at hm; exact absurd hm (by simp)
    | cons x t =>
      rw [getFirstItem, hq] at hm
      obtain rfl : m = x := (by simpa using hm : x = m).symm
      have hmem : m ∈ l := (hq ▸ hpl).subset (List.mem_cons_self m t)
      refine ⟨hmem, fun y hy => ?_⟩
      have hys : y ∈ sortQueue l := hpl.symm.subset hy
      rw [hq] at hys
      rcases List.mem_cons.mp hys with h | h
      · rw [h]; exact qle_refl m
      · exact List.rel_of_sorted_cons (hq ▸ hsorted) y h
  refine ⟨hsorted, hpl, rfl, ?_, hmin, ?_, ?_⟩
  · constructor
    · intro h
      have : sortQueue l = [] := by
        cases hq : sortQueue l with
        | nil => rfl
        | cons x t => rw [getFirstItem, hq] at h; exact absurd h (by simp)
      exact (hpl.symm.trans (this ▸ List.Perm.refl _)).eq_nil
    · intro h; rw [getFirstItem, h]; rfl
  · intro m hm x hx hne
    rcases (hmin m hm).2 x hx with h | ⟨h1, h2⟩
    · exact Or.inl h
    · refine Or.inr ⟨h1, lt_of_le_of_ne h2 fun hid => hne ?_⟩
      have h5 : m.addedAt.getD 0 = x.addedAt.getD 0 := h1
      rw [keyOf, keyOf, keyTime, keyTime, ← hid, ← h5]
  · exact sorted_perm_eq
      (hpl.trans (hperm.trans (List.perm_insertionSort qle l').symm))
      hsorted (List.sorted_insertionSort qle l')
      fun a hax b hbx hab hba =>
        qle_antisymm_on hnd a (hpl.subset hax) b (hpl.subset hbx) hab hba

/-- Shared concrete sample data for witnesses and counterexamples. -/
def mEx : SongMeta := { title := "Title", artist := "Artist", thumbnail := "thumb" }

/-- A concrete playback record used by several witnesses. -/
def stEx : PlaybackState :=
  { songId := "song-A"
    songMeta := mEx
    isPlaying := true
    position := 30
    volume := 100
    initiator := "host"
    opId := "op-A"
    version := 5
    updatedAt := 1000
    startServerTs := some 20000 }

/-- A concrete queue song used by queue witnesses. -/
def qsEx : RoomQueueSong :=
  { id := "vid-1", title := "Q", artist := "B", thumbnail := "t", duration := none }

/-- Two concrete queue items with distinct keys. -/
def qiEx1 : RoomQueueItem :=
  { itemId := "-Na", song := qsEx, addedBy := "alice", addedAt := some 100 }

/-- Second concrete queue item, added later. -/
def qiEx2 : RoomQueueItem :=
  { itemId := "-Nb", song := qsEx, addedBy := "bob", addedAt := some 200 }

theorem c7_queue_order_deterministic_witness :
    ([qiEx2, qiEx1].Perm [qiEx1, qiEx2] ∧
      ([qiEx2, qiEx1].map RoomQueueItem.itemId).Nodup) ∧
    (getFirstItem [qiEx2, qiEx1] = some qiEx1 ∧
      subscribeItems [qiEx2, qiEx1] = subscribeItems [qiEx1, qiEx2]) := by
  refine ⟨⟨by decide, by decide⟩, ?_, ?_⟩
  · decide
  · exact (c7_queue_order_deterministic [qiEx2, qiEx1] [qiEx1, qiEx2]
      (by decide) (by decide)).2.2.2.2.2.2

/-- Claim C5: a heartbeat tick writes only `position`, `updatedAt` and
`startServerTs` (refreshed to the current server time when playing, null
when paused), leaving `version`, `opId`, `songId`, `songMeta`, `isPlaying`,
`volume` and `initiator` unchanged; and when the stored record's `initiator`
is no longer the heartbeat runner (or the record is gone) no write happens
at all. -/
theorem c5_heartbeat_preserves_identity_fields (cur : PlaybackState) (userId : String)
    (pos : ℚ) (playing : Bool) (now : ℤ) :
    (∀ w, (heartbeatTick (some cur) userId pos playing now).1 = some w →
        w.version = cur.version ∧ w.opId = cur.opId ∧ w.songId = cur.songId ∧
        w.songMeta = cur.songMeta ∧ w.isPlaying = cur.isPlaying ∧
        w.volume = cur.volume ∧ w.initiator = cur.initiator) ∧
    (cur.initiator = userId →
      heartbeatTick (some cur) userId pos playing now =
        (some { cur with
                 position := pos
                 updatedAt := now
                 startServerTs := if playing then some now else none }, true)) ∧
    (cur.initiator ≠ userId →
      heartbeatTick (some cur) userId pos playing now = (some cur, false)) ∧
    heartbeatTick none userId pos playing now = (none, false) := by
  refine ⟨?_, ?_, ?_, rfl⟩
  · intro w hw
    by_cases h : cur.initiator = userId
    · simp only [heartbeatTick, if_pos h, Option.some.injEq] at hw
      rw [← hw]
      exact ⟨rfl, rfl, rfl, rfl, rfl, rfl, rfl⟩
    · simp only [heartbeatTick, if_neg h, Option.some.injEq] at hw
      rw [← hw]
      exact ⟨rfl, rfl, rfl, rfl, rfl, rfl, rfl⟩
  · intro h; simp [heartbeatTick, h]
  · intro h; simp [heartbeatTick, h]

theorem c5_heartbeat_preserves_identity_fields_witness :
    (stEx.initiator = "host" ∧ stEx.initiator ≠ "mallory") ∧
    (heartbeatTick (some stEx) "host" 42 true 99000 =
      (some { stEx with
               position := 42
               updatedAt := 99000
               startServerTs := some 99000 }, true) ∧
     heartbeatTick (some stEx) "mallory" 42 true 99000 = (some stEx, false)) := by
  refine ⟨⟨by decide, by decide⟩, ?_, ?_⟩
  · have := (c5_heartbeat_preserves_identity_fields stEx "host" 42 true 99000).2.1
      (by decide)
    simpa using this
  · exact (c5_heartbeat_preserves_identity_fields stEx "mallory" 42 true
      99000).2.2.1 (by decide)

/-- Claim C8: `playSong` reads the current record and writes a full playback
state with `isPlaying = true`, `position = 0`, the freshly generated `opId`,
`version = currentVersion + 1` (1 when no record exists), server timestamps
in `updatedAt` and `startServerTs`, and returns that `opId` to the caller. -/
theorem c8_playsong_increments_version (store : Option PlaybackState)
    (cur : PlaybackState) (userId songId : String) (meta : SongMeta)
    (vol : ℚ) (opId : String) (now : ℤ) :
    playSong store userId songId meta vol opId now =
      (some
        { songId := songId
          songMeta := meta
          isPlaying := true
          position := 0
          volume := vol
          initiator := userId
          opId := opId
          version := getNextVersion store
          updatedAt := now
          startServerTs := some now }, opId) ∧
    getNextVersion (some cur) = cur.version + 1 ∧
    getNextVersion none = 1 ∧
    (playSong store userId songId meta vol opId now).2 = opId :=
  ⟨rfl, rfl, rfl, rfl⟩

/-- Claim C10: on a missing playback record, `pause`, `resume` and `seek`
perform no store write and leave the store absent (and raise nothing — the
model functions are total); only `playSong` creates the record. -/
theorem c10_missing_record_ops_are_noops (userId : String) (pos : ℚ)
    (opId : String) (now : ℤ) (thr : Option ℤ) (call : SeekCall)
    (songId : String) (meta : SongMeta) (vol : ℚ) :
    pause none userId pos opId now = (none, false) ∧
    resume none userId pos opId now = (none, false) ∧
    (seek1 userId none thr call).1 = none ∧
    (seek1 userId none thr call).2.2 = none ∧
    (playSong none userId songId meta vol opId now).1.isSome = true := by
  refine ⟨rfl, rfl, ?_, ?_, rfl⟩ <;>
    · rw [seek1]
      by_cases h : throttleActive thr call.t = true <;> simp [h]

/-- Claim C3 (amended): the synced live position computed by the subscriber
equals `position + (T - startServerTs) / 1000` (milliseconds to seconds)
when `isPlaying` is true and `startServerTs` is a nonzero number, and equals
`position` otherwise — including when `startServerTs = 0`, which the
source's JS truthiness test treats like `null`. -/
theorem c3_synced_position_formula (st : PlaybackState) (now ts : ℤ)
    (hT : st.updatedAt ≤ now) :
    (st.startServerTs = some ts → ts ≠ 0 → st.isPlaying = true →
      syncedPos now st = st.position + ((now - ts : ℤ) : ℚ) / 1000) ∧
    (st.isPlaying = false → syncedPos now st = st.position) ∧
    (st.startServerTs = none → syncedPos now st = st.position) ∧
    (st.startServerTs = some 0 → syncedPos now st = st.position) := by
  refine ⟨?_, ?_, ?_, ?_⟩
  · intro h hts hp
    simp [syncedPos, h, hp, hts]
  · intro hp
    cases hs : st.startServerTs <;> simp [syncedPos, hs, hp]
  · intro h
    simp [syncedPos, h]
  · intro h
    simp [syncedPos, h]

theorem c3_synced_position_formula_witness :
    (stEx.updatedAt ≤ 30000 ∧ stEx.startServerTs = some 20000 ∧
      (20000 : ℤ) ≠ 0 ∧ stEx.isPlaying = true) ∧
    syncedPos 30000 stEx = stEx.position + ((30000 - 20000 : ℤ) : ℚ) / 1000 ∧
    syncedPos 30000 stEx = 40 := by
  refine ⟨⟨by decide, by decide, by decide, by decide⟩, ?_, ?_⟩
  · exact (c3_synced_position_formula stEx 30000 20000 (by decide)).1
      (by decide) (by decide) (by decide)
  · norm_num [syncedPos, stEx]

/-- The playback record refuting C3 as stated: playing, with a numeric
`startServerTs` that happens to be `0`. -/
def stZero : PlaybackState :=
  { stEx with position := 5, updatedAt := 0, startServerTs := some 0 }

theorem c3_counterexample :
    stZero.isPlaying = true ∧ stZero.startServerTs = some 0 ∧
    stZero.updatedAt ≤ 1000 ∧
    syncedPos 1000 stZero = 5 ∧ specSyncedPos 1000 stZero = 6 ∧
    syncedPos 1000 stZero ≠ specSyncedPos 1000 stZero := by
  refine ⟨by decide, by decide, by decide, ?_, ?_, ?_⟩ <;>
    norm_num [syncedPos, specSyncedPos, stZero, stEx]

/-! ### Seek throttling -/

lemma seekRun_all_throttled (userId : String) :
    ∀ (calls : List SeekCall) (store : Option PlaybackState) (te : ℤ),
      (∀ c ∈ calls, c.t < te) →
      seekRun userId store (some te) calls = (store, some te, []) := by
  intro calls
  induction calls with
  | nil => intro store te _; rfl
  | cons c rest ih =>
    intro store te h
    have hc : throttleActive (some te) c.t = true := by
      simp only [throttleActive, decide_eq_true_eq]
      exact h c (List.mem_cons_self c rest)
    have h1 : seek1 userId store (some te) c = (store, some te, none) := by
      simp [seek1, hc]
    rw [seekRun, h1, ih store te fun x hx => h x (List.mem_cons_of_mem c hx)]
    simp

/-- Claim C4 (amended): for any burst of seek intents whose later calls all
fall inside the 250 ms throttle window armed by the first call, exactly one
write reaches the store, and its `position` is the FIRST intent's position
(the source throttles on the leading edge, so the later intents — not the
earlier ones — are dropped, never queued). -/
theorem c4_seek_coalescing_first_wins (userId : String) (cur : PlaybackState)
    (c1 : SeekCall) (rest : List SeekCall)
    (hwin : ∀ c ∈ rest, c.t < c1.t + 250) :
    ((seekRun userId (some cur) none (c1 :: rest)).2.2.map
        (fun w => w.position)) = [c1.pos] ∧
    (seekRun userId (some cur) none (c1 :: rest)).2.2.length = 1 := by
  have hthr : throttleActive none c1.t = false := rfl
  rw [seekRun]
  simp only [seek1, hthr, Bool.false_eq_true, if_false]
  rw [seekRun_all_throttled userId rest _ (c1.t + 250) hwin]
  simp

theorem c4_seek_coalescing_first_wins_witness :
    (∀ c ∈ [(⟨50, 12, true, "s2"⟩ : SeekCall), ⟨100, 15, true, "s3"⟩],
        c.t < (⟨0, 10, true, "s1"⟩ : SeekCall).t + 250) ∧
    ((seekRun "u" (some stEx) none
        [⟨0, 10, true, "s1"⟩, ⟨50, 12, true, "s2"⟩, ⟨100, 15, true, "s3"⟩]).2.2.map
          (fun w => w.position)) = [(⟨0, 10, true, "s1"⟩ : SeekCall).pos] :=
  ⟨by decide,
    (c4_seek_coalescing_first_wins "u" stEx ⟨0, 10, true, "s1"⟩
      [⟨50, 12, true, "s2"⟩, ⟨100, 15, true, "s3"⟩] (by decide)).1⟩

theorem c4_counterexample :
    ((seekRun "u" (some stEx) none
        [⟨0, 10, true, "s1"⟩, ⟨50, 12, true, "s2"⟩, ⟨100, 15, true, "s3"⟩]).2.2.map
          (fun w => w.position)) = [10] ∧
    ¬ ((seekRun "u" (some stEx) none
        [⟨0, 10, true, "s1"⟩, ⟨50, 12, true, "s2"⟩, ⟨100, 15, true, "s3"⟩]).2.2.map
          (fun w => w.position)) = [15] := by
  constructor <;> decide

/-! ### Reconciler lemmas -/

lemma reconcile_cons (lu : Option String) (c : ClientState) (e : Delivery)
    (t : List Delivery) :
    reconcile lu c (e :: t) = reconcile lu (deliver lu c e).1 t := rfl

lemma deliver_stale (lu : Option String) (c : ClientState) (d : Delivery)
    (h : d.st.version < c.lastAppliedVersion) : deliver lu c d = (c, []) := by
  simp only [deliver, clientStep, if_pos h]

lemma deliver_echo (lu : Option String) (c : ClientState) (d : Delivery)
    (hv : ¬ d.st.version < c.lastAppliedVersion)
    (he : isLocalEcho lu d.st = true) :
    deliver lu c d = ({ c with lastAppliedVersion := d.st.version }, []) := by
  simp only [deliver, clientStep, if_neg hv, he, if_true]

lemma deliver_remote_fields (lu : Option String) (c : ClientState) (d : Delivery)
    (hv : ¬ d.st.version < c.lastAppliedVersion)
    (he : isLocalEcho lu d.st = false) :
    (deliver lu c d).1.lastAppliedVersion = d.st.version ∧
    (deliver lu c d).1.currentSongId = some d.st.songId ∧
    (deliver lu c d).1.isPlaying = d.st.isPlaying ∧
    (deliver lu c d).1.currentTime = syncedPos d.now d.st ∧
    (deliver lu c d).1.volume = d.st.volume := by
  simp only [deliver, clientStep, if_neg hv, he, Bool.false_eq_true, if_false,
    Option.getD_some]
  by_cases hp : d.playerReady <;>
    by_cases hf : shouldForceSeek c d.localTime (syncedPos d.now d.st) = true <;>
      by_cases hvv : d.st.volume = c.volume <;>
        simp [hp, hf, hvv]

lemma deliver_lastApplied (lu : Option String) (c : ClientState) (e : Delivery)
    (hv : ¬ e.st.version < c.lastAppliedVersion) :
    (deliver lu c e).1.lastAppliedVersion = e.st.version := by
  by_cases he : isLocalEcho lu e.st = true
  · rw [deliver_echo lu c e hv he]
  · have he2 : isLocalEcho lu e.st = false := by
      cases h : isLocalEcho lu e.st
      · rfl
      · exact absurd h he
    exact (deliver_remote_fields lu c e hv he2).1

lemma reconcile_absorb (lu : Option String) (d : Delivery)
    (he : isLocalEcho lu d.st = false) :
    ∀ (t : List Delivery) (c : ClientState),
      (∀ e ∈ t, e = d ∨ e.st.version < d.st.version) →
      c.lastAppliedVersion = d.st.version →
      c.currentSongId = some d.st.songId →
      c.isPlaying = d.st.isPlaying →
      c.currentTime = syncedPos d.now d.st →
      c.volume = d.st.volume →
      (reconcile lu c t).lastAppliedVersion = d.st.version ∧
      (reconcile lu c t).currentSongId = some d.st.songId ∧
      (reconcile lu c t).isPlaying = d.st.isPlaying ∧
      (reconcile lu c t).currentTime = syncedPos d.now d.st ∧
      (reconcile lu c t).volume = d.st.volume := by
  intro t
  induction t with
  | nil =>
    intro c _ h1 h2 h3 h4 h5
    exact ⟨h1, h2, h3, h4, h5⟩
  | cons e t ih =>
    intro c hmax h1 h2 h3 h4 h5
    rw [reconcile_cons]
    rcases hmax e (List.mem_cons_self e t) with rfl | hlt
    · have hv : ¬ e.st.version < c.lastAppliedVersion := by
        rw [h1]; exact lt_irrefl _
      obtain ⟨g1, g2, g3, g4, g5⟩ := deliver_remote_fields lu c e hv he
      exact ih _ (fun x hx => hmax x (List.mem_cons_of_mem e hx)) g1 g2 g3 g4 g5
    · have hv : e.st.version < c.lastAppliedVersion := by rw [h1]; exact hlt
      rw [deliver_stale lu c e hv]
      exact ih _ (fun x hx => hmax x (List.mem_cons_of_mem e hx)) h1 h2 h3 h4 h5

lemma reconcile_max (lu : Option String) (d : Delivery)
    (he : isLocalEcho lu d.st = false) :
    ∀ (l : List Delivery) (c : ClientState),
      c.lastAppliedVersion ≤ d.st.version → d ∈ l →
      (∀ e ∈ l, e = d ∨ e.st.version < d.st.version) →
      (reconcile lu c l).lastAppliedVersion = d.st.version ∧
      (reconcile lu c l).currentSongId = some d.st.songId ∧
      (reconcile lu c l).isPlaying = d.st.isPlaying ∧
      (reconcile lu c l).currentTime = syncedPos d.now d.st ∧
      (reconcile lu c l).volume = d.st.volume := by
  intro l
  induction l with
  | nil =>
    intro c _ hd _
    exact absurd hd (List.not_mem_nil d)
  | cons e t ih =>
    intro c hle hd hmax
    rcases hmax e (List.mem_cons_self e t) with rfl | hlt
    · have hv : ¬ e.st.version < c.lastAppliedVersion := not_lt.mpr hle
      obtain ⟨g1, g2, g3, g4, g5⟩ := deliver_remote_fields lu c e hv he
      rw [reconcile_cons]
      exact reconcile_absorb lu e he t _
        (fun x hx => hmax x (List.mem_cons_of_mem e hx)) g1 g2 g3 g4 g5
    · have hd2 : d ∈ t := by
        rcases List.mem_cons.mp hd with heq | h
        · exact absurd (heq ▸ hlt) (lt_irrefl _)
        · exact h
      rw [reconcile_cons]
      have hcl : (deliver lu c e).1.lastAppliedVersion ≤ d.st.version := by
        by_cases hv : e.st.version < c.lastAppliedVersion
        · rw [deliver_stale lu c e hv]; exact hle
        · rw [deliver_lastApplied lu c e hv]
          exact le_of_lt hlt
      exact ih _ hcl hd2 fun x hx => hmax x (List.mem_cons_of_mem e hx)

/-- Claim C1 (amended): an update whose version is strictly below the
highest applied version is discarded with no state change and no media
action; and for a sequence of updates delivered in any order in which the
maximum version is unique and the maximum-version update itself is not a
local echo, the reconciler's final applied state (song, playing flag,
position, volume, version watermark) is that of the maximum-version update.
Lower-version echoes may be interleaved anywhere: they only advance the
version watermark.  (The proviso on the maximum is forced: a local echo
only advances the watermark and leaves the media state to the issuer's
optimistic local copy, see the counterexample.) -/
theorem c1_reconciler_converges_to_max_version (lu : Option String)
    (l : List Delivery) (d : Delivery) (hd : d ∈ l)
    (hmax : ∀ e ∈ l, e = d ∨ e.st.version < d.st.version)
    (hecho : isLocalEcho lu d.st = false) :
    (∀ (c : ClientState) (e : Delivery), e.st.version < c.lastAppliedVersion →
        deliver lu c e = (c, [])) ∧
    (reconcile lu initClient l).lastAppliedVersion = d.st.version ∧
    (reconcile lu initClient l).currentSongId = some d.st.songId ∧
    (reconcile lu initClient l).isPlaying = d.st.isPlaying ∧
    (reconcile lu initClient l).currentTime = syncedPos d.now d.st ∧
    (reconcile lu initClient l).volume = d.st.volume :=
  ⟨fun c e h => deliver_stale lu c e h,
    reconcile_max lu d hecho l initClient (Nat.zero_le _) hd hmax⟩

/-- Delivery of a lower-version update that is the client's own echo when
`lastUserOpId = some "op-1"`, interleaved in the C1 witness sequence. -/
def d1Ex : Delivery :=
  ⟨{ stEx with version := 1, opId := "op-1", position := 7 }, 25000, true, none⟩

/-- Delivery of the unique maximum-version update, used by the C1 witness. -/
def d2Ex : Delivery :=
  ⟨{ stEx with version := 2, opId := "op-2", position := 50 }, 30000, true, some 0⟩

theorem c1_witness :
    (d2Ex ∈ [d1Ex, d2Ex] ∧
      (∀ e ∈ [d1Ex, d2Ex], e = d2Ex ∨ e.st.version < d2Ex.st.version) ∧
      isLocalEcho (some "op-1") d2Ex.st = false ∧
      isLocalEcho (some "op-1") d1Ex.st = true) ∧
    ((reconcile (some "op-1") initClient [d1Ex, d2Ex]).lastAppliedVersion =
        d2Ex.st.version ∧
     (reconcile (some "op-1") initClient [d1Ex, d2Ex]).currentSongId =
        some d2Ex.st.songId ∧
     (reconcile (some "op-1") initClient [d1Ex, d2Ex]).isPlaying = d2Ex.st.isPlaying ∧
     (reconcile (some "op-1") initClient [d1Ex, d2Ex]).currentTime =
        syncedPos d2Ex.now d2Ex.st ∧
     (reconcile (some "op-1") initClient [d1Ex, d2Ex]).volume = d2Ex.st.volume) :=
  ⟨⟨by decide, by decide, by decide, by decide⟩,
    (c1_reconciler_converges_to_max_version (some "op-1") [d1Ex, d2Ex] d2Ex
      (by decide) (by decide) (by decide)).2⟩

/-- A delivery that is the client's own echo (its `opId` is the client's
last issued op), used to refute C1 as stated. -/
def dEchoEx : Delivery :=
  ⟨{ stEx with opId := "op-mine", version := 9 }, 30000, true, none⟩

theorem c1_counterexample :
    dEchoEx ∈ [dEchoEx] ∧
    (∀ e ∈ [dEchoEx], e = dEchoEx ∨ e.st.version < dEchoEx.st.version) ∧
    (reconcile (some "op-mine") initClient [dEchoEx]).lastAppliedVersion =
      dEchoEx.st.version ∧
    ¬ ((reconcile (some "op-mine") initClient [dEchoEx]).currentSongId =
        some dEchoEx.st.songId) := by
  refine ⟨by decide, by decide, by decide, by decide⟩

/-- Claim C2 (amended): an observed update whose `opId` equals the client's
last locally issued `opId` never produces any media action; it advances the
highest-applied-version to the update's version whenever that version is not
below the current watermark, and otherwise (a stale echo) is discarded with
the watermark unchanged — the unconditional watermark update of the claim
fails on stale echoes, see the counterexample. -/
theorem c2_echo_suppression (c : ClientState) (st : PlaybackState) (now : ℤ)
    (pr : Bool) (lt2 : Option ℚ) :
    isLocalEcho (some st.opId) st = true ∧
    (deliver (some st.opId) c ⟨st, now, pr, lt2⟩).2 = [] ∧
    (st.version < c.lastAppliedVersion →
      deliver (some st.opId) c ⟨st, now, pr, lt2⟩ = (c, [])) ∧
    (c.lastAppliedVersion ≤ st.version →
      deliver (some st.opId) c ⟨st, now, pr, lt2⟩ =
        ({ c with lastAppliedVersion := st.version }, [])) := by
  have he : isLocalEcho (some st.opId) st = true := by simp [isLocalEcho]
  refine ⟨he, ?_, ?_, ?_⟩
  · by_cases hv : st.version < c.lastAppliedVersion
    · rw [deliver_stale _ _ _ hv]
    · rw [deliver_echo _ _ _ hv he]
  · intro hv
    exact deliver_stale _ _ _ hv
  · intro hv
    exact deliver_echo _ _ _ (not_lt.mpr hv) he

theorem c2_echo_suppression_witness :
    (stEx.version < 9 ∧ initClient.lastAppliedVersion ≤ stEx.version) ∧
    deliver (some stEx.opId) { initClient with lastAppliedVersion := 9 }
        ⟨stEx, 30000, true, none⟩ =
      ({ initClient with lastAppliedVersion := 9 }, []) ∧
    deliver (some stEx.opId) initClient ⟨stEx, 30000, true, none⟩ =
      ({ initClient with lastAppliedVersion := stEx.version }, []) :=
  ⟨⟨by decide, by decide⟩,
    (c2_echo_suppression { initClient with lastAppliedVersion := 9 } stEx
      30000 true none).2.2.1 (by decide),
    (c2_echo_suppression initClient stEx 30000 true none).2.2.2 (by decide)⟩

theorem c2_counterexample :
    isLocalEcho (some "op-A") stEx = true ∧ stEx.version = 5 ∧
    ¬ ((deliver (some "op-A") { initClient with lastAppliedVersion := 9 }
        ⟨stEx, 30000, true, none⟩).1.lastAppliedVersion = stEx.version) := by
  refine ⟨by decide, by decide, by decide⟩

lemma deliver_fresh_actions (st : PlaybackState) (now : ℤ) (lt2 : Option ℚ) :
    (deliver none initClient ⟨st, now, true, lt2⟩).1.hasInitialSynced = true ∧
    MediaAction.seekTo (syncedPos now st) ∈
      (deliver none initClient ⟨st, now, true, lt2⟩).2 ∧
    MediaAction.reloadTrack st.songId ∈
      (deliver none initClient ⟨st, now, true, lt2⟩).2 := by
  have he : isLocalEcho none st = false := rfl
  have hv : ¬ st.version < initClient.lastAppliedVersion := Nat.not_lt_zero _
  have hsame : (initClient.currentSongId == some st.songId) = false := rfl
  have hforce : shouldForceSeek initClient lt2 (syncedPos now st) = true := by
    simp [shouldForceSeek, initClient]
  simp only [deliver, clientStep, if_neg hv, he, Bool.false_eq_true, if_false,
    Option.getD_some, hsame, hforce, if_true]
  by_cases hvv : st.volume = initClient.volume <;> simp [hvv]

/-- Claim C6: a freshly subscribed client (watermark at its initial value 0,
no song loaded, no local op issued) applies the very first observed state
whatever its version: the watermark becomes the update's version, the track
is reloaded, and a hard seek to the synced position is issued.  In the
concrete late-joiner scenario (`version = 5`, playing, `position = 30`,
`startServerTs = 20000`) a client subscribing at server time `30000`
(`T0 + 10` seconds) seeks to position 40. -/
theorem c6_late_joiner_hard_seek (st : PlaybackState) (now : ℤ)
    (lt2 : Option ℚ) :
    isLocalEcho none st = false ∧
    (deliver none initClient ⟨st, now, true, lt2⟩).1.lastAppliedVersion = st.version ∧
    (deliver none initClient ⟨st, now, true, lt2⟩).1.currentSongId = some st.songId ∧
    (deliver none initClient ⟨st, now, true, lt2⟩).1.isPlaying = st.isPlaying ∧
    (deliver none initClient ⟨st, now, true, lt2⟩).1.currentTime = syncedPos now st ∧
    (deliver none initClient ⟨st, now, true, lt2⟩).1.hasInitialSynced = true ∧
    MediaAction.seekTo (syncedPos now st) ∈ (deliver none initClient ⟨st, now, true, lt2⟩).2 ∧
    MediaAction.reloadTrack st.songId ∈ (deliver none initClient ⟨st, now, true, lt2⟩).2 ∧
    (deliver none initClient ⟨stEx, 30000, true, some 0⟩).1.currentTime = 40 ∧
    MediaAction.seekTo 40 ∈ (deliver none initClient ⟨stEx, 30000, true, some 0⟩).2 := by
  have he : isLocalEcho none st = false := rfl
  have hv : ¬ st.version < initClient.lastAppliedVersion := Nat.not_lt_zero _
  have hflds := deliver_remote_fields none initClient ⟨st, now, true, lt2⟩ hv he
  have hrest := deliver_fresh_actions st now lt2
  have h40 : syncedPos 30000 stEx = 40 := by norm_num [syncedPos, stEx]
  have hcf := deliver_remote_fields none initClient ⟨stEx, 30000, true, some 0⟩
    (Nat.not_lt_zero _) rfl
  refine ⟨he, hflds.1, hflds.2.1, hflds.2.2.1, hflds.2.2.2.1,
    hrest.1, hrest.2.1, hrest.2.2, ?_, ?_⟩
  · rw [hcf.2.2.2.1, h40]
  · have hm := (deliver_fresh_actions stEx 30000 (some 0)).2.1
    rwa [h40] at hm

/-- Claim C9 (amended): when the room's playback record disappears, the
service invokes the subscriber's callback with `(null, null, false)`, and
the client's sync handler returns at once: the local playback state is left
unchanged and no media action (stop, pause, seek, notification) is issued.
The "room no longer exists" notification of the claim exists only in the
invite/rejoin flows, not in the playback subscription — see the
counterexample. -/
theorem c9_null_snapshot_ignored (lu : Option String) (c : ClientState)
    (now : ℤ) (pr : Bool) (lt2 : Option ℚ) :
    svcEmit lu now none = (none, none, false) ∧
    onSnapshot lu c none now pr lt2 = (c, []) :=
  ⟨rfl, rfl⟩

/-- A client that is currently playing a song, used to refute C9 as
stated. -/
def cPlaying : ClientState :=
  { initClient with
     isPlaying := true
     currentSongId := some "song-A"
     lastAppliedVersion := 5 }

theorem c9_counterexample :
    cPlaying.isPlaying = true ∧
    (onSnapshot none cPlaying none 1000 true none).1 = cPlaying ∧
    (onSnapshot none cPlaying none 1000 true none).2 = [] ∧
    ¬ ((onSnapshot none cPlaying none 1000 true none).1.isPlaying = false ∨
       MediaAction.setPlaying false ∈ (onSnapshot none cPlaying none 1000 true none).2) := by
  refine ⟨by decide, by decide, by decide, by decide⟩

end SoulSync
